import Mathlib

/-!
Verification of the layered column-grid collision structure of habitat-sim
(`src/esp/batched_sim/ColumnGrid.cpp`).

The embedding models the numeric `float` fields as exact rationals (the query
algorithm only compares and subtracts Y values) and the on-disk file as the
structured sequence of records the code reads and writes.  Definitions follow
the source file; the handful of helpers that are declared in `ColumnGrid.h`
(which is not among the available sources) are modelled from the spec and say
so in their doc comments.
-/

/-- One vertical free-space interval at a grid cell
(`ColumnGridSource::Column` with `freeMinY`, `freeMaxY`). -/
structure Column where
  freeMinY : ℚ
  freeMaxY : ℚ
deriving DecidableEq, Repr

/-- One dense layer of columns (`ColumnGridSource::Layer`), `dimX * dimZ`
records in row-major order. -/
structure Layer where
  columns : List Column
deriving DecidableEq, Repr

/-- Modelled from the spec: the `Patch` runtime acceleration unit declared in
`ColumnGrid.h` (not among the sources).  It carries `numLayers` and
`localCellShift` as used by `castDownTest`, and the per-patch column lookup
(`getColumn(patch, localCellIdx, layerIndex)` in the source) is modelled as a
total lookup table `columnAt localCellIdx layerIndex`. -/
structure Patch where
  numLayers : Nat
  localCellShift : Nat
  columnAt : Nat → Nat → Column

/-- A world-space position (`Magnum::Vector3` restricted to the three
components the query reads). -/
structure Vec3 where
  x : ℚ
  y : ℚ
  z : ℚ
deriving DecidableEq, Repr

/-- Modelled from the spec: `ColumnGridSource::INVALID_Y` is declared in the
missing header; the spec only requires the sentinel `-INVALID_Y` to be a large
negative constant, so a large positive value is chosen. -/
def INVALID_Y : ℚ := 1000000

/-- Modelled from the spec: the grid-wide patch side-length exponent
(`patchShift`, side `2 ^ patchShift`); the exact value is not recorded in the
available sources and no claim depends on it. -/
def patchShift : Nat := 4

/-- Modelled from the spec: mask extracting the within-patch part of a global
cell coordinate (`globalToLocalCellMask` in the missing header). -/
def globalToLocalCellMask : Nat := (1 <<< patchShift) - 1

/-- The magic constant of the `.columngrid` file format
(`MAGIC = 0xFACEB00501234567`). -/
def MAGIC : Nat := 0xFACEB00501234567

/-- The current file-format version (`CURRENT_FILE_VERSION = 1`). -/
def CURRENT_FILE_VERSION : Nat := 1

/-- One baked grid for one sphere radius (`ColumnGridSource`).  `layers` is
the dense on-disk representation; `patches` is the derived in-memory patch
index (modelled as a total lookup since the patch array lives in the missing
header). -/
structure ColumnGridSource where
  dimX : Nat
  dimZ : Nat
  minX : ℚ
  minZ : ℚ
  gridSpacing : ℚ
  invGridSpacing : ℚ
  sphereRadius : ℚ
  layers : List Layer
  patches : Nat → Patch

/-- Modelled from the spec: the number of patches along X, derived from the
grid dimensions and the patch side length. -/
def ColumnGridSource.numPatchesX (g : ColumnGridSource) : Nat :=
  (g.dimX + (1 <<< patchShift) - 1) >>> patchShift

/-- Modelled from the spec: `getPatchIndex(patchX, patchZ)` of the missing
header, row-major over the patch grid. -/
def ColumnGridSource.getPatchIndex (g : ColumnGridSource) (patchX patchZ : Nat) : Nat :=
  patchZ * g.numPatchesX + patchX

/-- Modelled from the spec: `getLocalCellIndex(localCellX, localCellZ)` of the
missing header, row-major within a patch. -/
def getLocalCellIndex (localCellX localCellZ : Nat) : Nat :=
  localCellZ * (1 <<< patchShift) + localCellX

/-- The fractional X cell coordinate `(pos.x() - minX) * invGridSpacing`. -/
def ColumnGridSource.cellFloatX (g : ColumnGridSource) (x : ℚ) : ℚ :=
  (x - g.minX) * g.invGridSpacing

/-- The fractional Z cell coordinate `(pos.z() - minZ) * invGridSpacing`. -/
def ColumnGridSource.cellFloatZ (g : ColumnGridSource) (z : ℚ) : ℚ :=
  (z - g.minZ) * g.invGridSpacing

/-- The integer X cell `int(cellFloatX)` (truncation; the guards ensure the
value is non-negative, where truncation agrees with the floor). -/
def ColumnGridSource.globalCellX (g : ColumnGridSource) (x : ℚ) : Nat :=
  (Rat.floor (g.cellFloatX x)).toNat

/-- The integer Z cell `int(cellFloatZ)`. -/
def ColumnGridSource.globalCellZ (g : ColumnGridSource) (z : ℚ) : Nat :=
  (Rat.floor (g.cellFloatZ z)).toNat

/-- The patch owning the cell of horizontal position `(x, z)`:
`patches[getPatchIndex(globalCellX >> patchShift, globalCellZ >> patchShift)]`. -/
def ColumnGridSource.patchAtXZ (g : ColumnGridSource) (x z : ℚ) : Patch :=
  g.patches (g.getPatchIndex (g.globalCellX x >>> patchShift) (g.globalCellZ z >>> patchShift))

/-- The within-patch cell index of `(x, z)`:
`getLocalCellIndex((globalCell & mask) >> patch.localCellShift, ...)`. -/
def ColumnGridSource.localCellIdxAtXZ (g : ColumnGridSource) (x z : ℚ) : Nat :=
  let patch := g.patchAtXZ x z
  let localCellX := (g.globalCellX x &&& globalToLocalCellMask) >>> patch.localCellShift
  let localCellZ := (g.globalCellZ z &&& globalToLocalCellMask) >>> patch.localCellShift
  getLocalCellIndex localCellX localCellZ

/-- The column-stack of the cell that `(x, z)` resolves to: layer `i` is
`getColumn(patch, localCellIdx, i)`. -/
def ColumnGridSource.stackAtXZ (g : ColumnGridSource) (x z : ℚ) : Nat → Column :=
  fun i => (g.patchAtXZ x z).columnAt (g.localCellIdxAtXZ x z) i

/-- The result of one `castDownTest` call: the returned clearance `value`, the
query-cache value after the call (the out-parameter `*queryCache`), and
`reads`, an instrumentation counter of how many `Column` records
(`getColumn` calls) the query fetched. -/
structure CastResult where
  value : ℚ
  cache : Int
  reads : Nat
deriving DecidableEq, Repr

/-- Add one column fetch to the read counter of a result. -/
def CastResult.addRead (r : CastResult) : CastResult :=
  ⟨r.value, r.cache, r.reads + 1⟩

/-- The upward linear scan of `castDownTest` (`// search up`).  Each iteration
increments `layerIndex`, exits when `layerIndex >= numLayers` (cache pinned to
the topmost layer, sentinel returned), and otherwise fetches the next column:
strictly below its interval means the point is between two free columns;
inside means a hit; above means continue.  `fuel` bounds the recursion: the
index strictly increases and the loop exits once it reaches `numLayers`, so
`fuel = numLayers` at the call site never runs out, and the fuel-exhaustion
branch coincides with the layers-exhausted exit. -/
def searchUp (col : Nat → Column) (numLayers : Nat) (queryY : ℚ) :
    Nat → Nat → CastResult
  | 0, _ => ⟨-INVALID_Y, Int.ofNat (numLayers - 1), 0⟩
  | fuel + 1, layerIndex =>
    let layerIndex' := layerIndex + 1
    if numLayers ≤ layerIndex' then
      ⟨-INVALID_Y, Int.ofNat (numLayers - 1), 0⟩
    else
      let c := col layerIndex'
      if queryY < c.freeMinY then
        ⟨queryY - c.freeMinY, Int.ofNat layerIndex', 1⟩
      else if queryY ≤ c.freeMaxY then
        ⟨queryY - c.freeMinY, Int.ofNat layerIndex', 1⟩
      else
        (searchUp col numLayers queryY fuel layerIndex').addRead

/-- The downward linear scan of `castDownTest` (`// search down`).  The
argument `layerIndex` is the index before the decrement: the C++ loop
decrements, exits with cache `0` and the sentinel once the index is negative,
and otherwise fetches the column below, tracking the previous (higher)
interval's `freeMinY` in `prevColFreeMinY`. -/
def searchDown (col : Nat → Column) (queryY : ℚ) (prevColFreeMinY : ℚ) :
    Nat → CastResult
  | 0 => ⟨-INVALID_Y, 0, 0⟩
  | layerIndex + 1 =>
    let c := col layerIndex
    if c.freeMaxY < queryY then
      ⟨queryY - prevColFreeMinY, Int.ofNat layerIndex, 1⟩
    else if c.freeMinY ≤ queryY then
      ⟨queryY - c.freeMinY, Int.ofNat layerIndex, 1⟩
    else
      (searchDown col queryY c.freeMinY layerIndex).addRead

/-- The per-stack part of `castDownTest`, from the cache clamp
(`Mn::Math::clamp(int(*queryCache), 0, patch.numLayers - 1)`) onward: fetch
the cached layer's column, on a hit return `queryY - freeMinY` with the cache
updated, otherwise scan up or down. -/
def castDownCore (col : Nat → Column) (numLayers : Nat) (queryY : ℚ)
    (queryCache : Int) : CastResult :=
  let layerIndex : Nat := (min (max queryCache 0) (Int.ofNat (numLayers - 1))).toNat
  let c := col layerIndex
  if c.freeMinY ≤ queryY then
    if queryY ≤ c.freeMaxY then
      ⟨queryY - c.freeMinY, Int.ofNat layerIndex, 1⟩
    else
      (searchUp col numLayers queryY numLayers layerIndex).addRead
  else
    (searchDown col queryY c.freeMinY layerIndex).addRead

/-- `ColumnGridSource::castDownTest`.  Off-grid horizontal positions and cells
whose owning patch has no layers return the sentinel `-INVALID_Y`
(`outsideVolumeRetVal`) without touching the cache; otherwise the cell's
column-stack is searched starting from the clamped cache value. -/
def ColumnGridSource.castDownTest (g : ColumnGridSource) (pos : Vec3)
    (queryCache : Int) : CastResult :=
  if g.cellFloatX pos.x < 0 ∨ (g.dimX : ℚ) ≤ g.cellFloatX pos.x then
    ⟨-INVALID_Y, queryCache, 0⟩
  else if g.cellFloatZ pos.z < 0 ∨ (g.dimZ : ℚ) ≤ g.cellFloatZ pos.z then
    ⟨-INVALID_Y, queryCache, 0⟩
  else
    let patch := g.patchAtXZ pos.x pos.z
    if patch.numLayers = 0 then
      ⟨-INVALID_Y, queryCache, 0⟩
    else
      castDownCore (g.stackAtXZ pos.x pos.z) patch.numLayers pos.y queryCache

/-- `ColumnGridSource::contactTest`: `castDownTest(pos, queryCache) < 0`,
together with the cache effect of the underlying call. -/
def ColumnGridSource.contactTest (g : ColumnGridSource) (pos : Vec3)
    (queryCache : Int) : Bool × Int :=
  let r := g.castDownTest pos queryCache
  (decide (r.value < 0), r.cache)

/-- The fixed-size header of a `.columngrid` file (`FileHeader`). -/
structure FileHeader where
  magic : Nat
  version : Nat
  minX : ℚ
  minZ : ℚ
  gridSpacing : ℚ
  sphereRadius : ℚ
  dimX : Nat
  dimZ : Nat
  numLayers : Nat
deriving DecidableEq, Repr

/-- The contents of one `.columngrid` file: the header followed by the flat
stream of `Column` records (`numLayers` blocks of `dimX * dimZ` each in a
well-formed file). -/
structure ColumnGridFile where
  header : FileHeader
  data : List Column
deriving DecidableEq, Repr

/-- `ColumnGridSource::save`: write the header with the current field values
(`numLayers = layers.size()`), then each layer's dense array of
`dimX * dimZ` records. -/
def ColumnGridSource.save (g : ColumnGridSource) : ColumnGridFile :=
  { header :=
      { magic := MAGIC
        version := CURRENT_FILE_VERSION
        minX := g.minX
        minZ := g.minZ
        gridSpacing := g.gridSpacing
        sphereRadius := g.sphereRadius
        dimX := g.dimX
        dimZ := g.dimZ
        numLayers := g.layers.length }
    data := (g.layers.map (fun l => l.columns.take (g.dimX * g.dimZ))).flatten }

/-- Read `count` dense blocks of `chunk` records each from the stream,
returning the layers read and whether every read was complete (each `fread`
of a layer either delivers the full `dimX * dimZ` records or fails). -/
def readLayers (chunk : Nat) : Nat → List Column → List Layer × Bool
  | 0, _ => ([], true)
  | count + 1, data =>
    if chunk ≤ data.length then
      let rest := readLayers chunk count (data.drop chunk)
      (⟨data.take chunk⟩ :: rest.1, rest.2)
    else
      ([], false)

/-- `ColumnGridSource::load`.  A missing file, a magic mismatch (which also
covers a short header read) or a version mismatch abort the load before any
field is assigned; otherwise the scalar fields are populated from the header
(`invGridSpacing = 1 / gridSpacing`) and `numLayers` dense layers are read.
Modelled from the spec: `ensureLayer` (missing header) prepares exactly the
`numLayers` dense arrays the loop then reads; on a short read the layers hold
just the complete reads (the grid is partially populated and unusable).  The
C++ function returns `void`; the model returns the instance state after the
call. -/
def ColumnGridSource.load (self : ColumnGridSource) (file : Option ColumnGridFile) :
    ColumnGridSource :=
  match file with
  | none => self
  | some f =>
    if f.header.magic ≠ MAGIC then self
    else if f.header.version ≠ CURRENT_FILE_VERSION then self
    else
      { self with
        dimX := f.header.dimX
        dimZ := f.header.dimZ
        gridSpacing := f.header.gridSpacing
        minX := f.header.minX
        minZ := f.header.minZ
        sphereRadius := f.header.sphereRadius
        invGridSpacing := 1 / f.header.gridSpacing
        layers := (readLayers (f.header.dimX * f.header.dimZ) f.header.numLayers f.data).1 }

/-- Whether a `ColumnGridSource::load` call on this file takes the success
path (the spec's `Result<(), LoadError>` view of the call): the file exists,
the magic and version match, and every layer read is complete.  The C++
function itself returns `void` and only logs failures. -/
def loadResultOk (file : Option ColumnGridFile) : Bool :=
  match file with
  | none => false
  | some f =>
    decide (f.header.magic = MAGIC) &&
    decide (f.header.version = CURRENT_FILE_VERSION) &&
    (readLayers (f.header.dimX * f.header.dimZ) f.header.numLayers f.data).2

/-- Modelled from the spec: a default-constructed `ColumnGridSource` (the
member initializers live in the missing header): zeroed scalars, no layers,
and an all-solid patch table. -/
def emptySource : ColumnGridSource :=
  { dimX := 0
    dimZ := 0
    minX := 0
    minZ := 0
    gridSpacing := 0
    invGridSpacing := 0
    sphereRadius := 0
    layers := []
    patches := fun _ => ⟨0, 0, fun _ _ => ⟨0, 0⟩⟩ }

/-- `ColumnGridSet`: the loaded grids and the parallel list of their baked
sphere radii. -/
structure ColumnGridSet where
  columnGrids : List ColumnGridSource
  sphereRadii : List ℚ

/-- The discovery loop of `ColumnGridSet::load`: the filesystem is modelled as
the optional file at each probe index `0, 1, 2, ...`; each present file is
loaded into a fresh `ColumnGridSource` and appended, and the loop stops at the
first missing file. -/
def loadGridsLoop : List (Option ColumnGridFile) → List ColumnGridSource
  | [] => []
  | none :: _ => []
  | some f :: rest => emptySource.load (some f) :: loadGridsLoop rest

/-- `ColumnGridSet::load`.  Modelled from the spec: `ESP_CHECK` (declared in
`esp/core/Check.h`, not among the sources) aborts the process when its
condition fails; the fatal abort is modelled as `none`.  The check fires
exactly when the very first probe finds no file, i.e. when zero grids were
found. -/
def ColumnGridSet.load (fs : List (Option ColumnGridFile)) : Option ColumnGridSet :=
  let grids := loadGridsLoop fs
  if grids.isEmpty then none
  else some ⟨grids, grids.map (fun g => g.sphereRadius)⟩

/-- Modelled from the spec: `safeVectorGet` (declared in
`BatchedSimAssert.h`, not among the sources) is a bounds-checked vector
access that fails loudly (assertion) on an out-of-range index; the assertion
failure is modelled as `none`. -/
def safeVectorGet {α : Type} (v : List α) (idx : Int) : Option α :=
  if h : 0 ≤ idx ∧ idx.toNat < v.length then some (v.get ⟨idx.toNat, h.2⟩) else none

/-- `ColumnGridSet::getColumnGrid`: bounds-checked dispatch to the selected
grid. -/
def ColumnGridSet.getColumnGrid (st : ColumnGridSet) (radiusIdx : Int) :
    Option ColumnGridSource :=
  safeVectorGet st.columnGrids radiusIdx

/-- `ColumnGridSet::contactTest`: bounds-checked dispatch of the contact
query to the grid selected by `radiusIdx`. -/
def ColumnGridSet.contactTest (st : ColumnGridSet) (radiusIdx : Int) (pos : Vec3)
    (queryCache : Int) : Option (Bool × Int) :=
  (safeVectorGet st.columnGrids radiusIdx).map (fun src => src.contactTest pos queryCache)

/-- `ColumnGridSet::castDownTest`: bounds-checked dispatch of the cast-down
query to the grid selected by `radiusIdx`. -/
def ColumnGridSet.castDownTest (st : ColumnGridSet) (radiusIdx : Int) (pos : Vec3)
    (queryCache : Int) : Option CastResult :=
  (safeVectorGet st.columnGrids radiusIdx).map (fun src => src.castDownTest pos queryCache)

/-- The spec's invariant on a cell's column-stack: within the stack the
intervals are proper (`freeMinY <= freeMaxY`) and strictly increasing in Y
without overlap (each interval's top lies strictly below the next interval's
bottom). -/
def WellOrdered (col : Nat → Column) (n : Nat) : Prop :=
  (∀ i, i < n → (col i).freeMinY ≤ (col i).freeMaxY) ∧
  (∀ i, i < n → i + 1 < n → (col i).freeMaxY < (col (i + 1)).freeMinY)

instance (col : Nat → Column) (n : Nat) : Decidable (WellOrdered col n) := by
  unfold WellOrdered
  infer_instance

/-- The contiguous present prefix of the probed files: the files
`ColumnGridSet::load` actually loads, in probe order (a refinement-side
definition following the spec's words "until a file is missing"). -/
def presentFiles : List (Option ColumnGridFile) → List ColumnGridFile
  | [] => []
  | none :: _ => []
  | some f :: rest => f :: presentFiles rest

/-- A two-interval column-stack: the spec's example `[0,1]` and `[5,6]`. -/
def exStack : Nat → Column := fun i => if i = 0 then ⟨0, 1⟩ else ⟨5, 6⟩

/-- A patch holding the two-interval stack at every local cell. -/
def exPatch : Patch := ⟨2, 0, fun _ i => exStack i⟩

/-- A concrete 1×1 loaded grid over the two-interval stack, used to witness
the query claims. -/
def exGrid : ColumnGridSource :=
  { dimX := 1
    dimZ := 1
    minX := 0
    minZ := 0
    gridSpacing := 1
    invGridSpacing := 1
    sphereRadius := 1
    layers := []
    patches := fun _ => exPatch }

/-- A concrete two-layer grid with in-memory layer data, used to witness the
save/load round-trip. -/
def exSaveGrid : ColumnGridSource :=
  { dimX := 1
    dimZ := 1
    minX := 2
    minZ := 3
    gridSpacing := 1/2
    invGridSpacing := 2
    sphereRadius := 1/10
    layers := [⟨[⟨0, 2⟩]⟩, ⟨[⟨5, 6⟩]⟩]
    patches := fun _ => ⟨0, 0, fun _ _ => ⟨0, 0⟩⟩ }

/-- A file whose magic constant is wrong. -/
def badMagicFile : ColumnGridFile :=
  { header := { magic := 0, version := 1, minX := 0, minZ := 0, gridSpacing := 1,
                sphereRadius := 1, dimX := 1, dimZ := 1, numLayers := 1 }
    data := [⟨0, 0⟩] }

/-- A file whose version field is not the current version. -/
def badVersionFile : ColumnGridFile :=
  { header := { magic := MAGIC, version := 7, minX := 0, minZ := 0, gridSpacing := 1,
                sphereRadius := 1, dimX := 1, dimZ := 1, numLayers := 1 }
    data := [⟨0, 0⟩] }

/-- A concrete two-grid set, used to witness the dispatch claim. -/
def exSet : ColumnGridSet := ⟨[exGrid, exSaveGrid], [1, 1/10]⟩

@[simp]
theorem CastResult.addRead_value (r : CastResult) : r.addRead.value = r.value := rfl

@[simp]
theorem CastResult.addRead_cache (r : CastResult) : r.addRead.cache = r.cache := rfl

@[simp]
theorem CastResult.addRead_reads (r : CastResult) : r.addRead.reads = r.reads + 1 := rfl

/-- In a well-ordered stack the interval bottoms are monotone in the layer
index (auxiliary form on an explicit offset). -/
theorem wo_minY_add {col : Nat → Column} {n : Nat} (h : WellOrdered col n) :
    ∀ d i, i + d < n → (col i).freeMinY ≤ (col (i + d)).freeMinY := by
  intro d
  induction d with
  | zero => intro i _; exact le_refl _
  | succ m ih =>
    intro i hi
    have h1 : i + m < n := by omega
    have h2 := ih i h1
    have h3 : (col (i + m)).freeMinY ≤ (col (i + m)).freeMaxY := h.1 (i + m) h1
    have h4 : (col (i + m)).freeMaxY < (col (i + m + 1)).freeMinY := h.2 (i + m) h1 (by omega)
    have : i + (m + 1) = i + m + 1 := by omega
    rw [this]
    exact le_trans h2 (le_trans h3 (le_of_lt h4))

/-- Interval bottoms are monotone in the layer index. -/
theorem wo_minY_le {col : Nat → Column} {n : Nat} (h : WellOrdered col n)
    {i j : Nat} (hij : i ≤ j) (hj : j < n) : (col i).freeMinY ≤ (col j).freeMinY := by
  obtain ⟨d, rfl⟩ := Nat.exists_eq_add_of_le hij
  exact wo_minY_add h d i hj

/-- In a well-ordered stack, any lower interval's top lies strictly below any
higher interval's bottom. -/
theorem wo_maxY_lt_minY {col : Nat → Column} {n : Nat} (h : WellOrdered col n)
    {i j : Nat} (hij : i < j) (hj : j < n) : (col i).freeMaxY < (col j).freeMinY := by
  have h1 : (col i).freeMaxY < (col (i + 1)).freeMinY := h.2 i (by omega) (by omega)
  have h2 : (col (i + 1)).freeMinY ≤ (col j).freeMinY := wo_minY_le h (by omega) hj
  exact lt_of_lt_of_le h1 h2

/-- Interval tops are monotone in the layer index. -/
theorem wo_maxY_le {col : Nat → Column} {n : Nat} (h : WellOrdered col n)
    {i j : Nat} (hij : i ≤ j) (hj : j < n) : (col i).freeMaxY ≤ (col j).freeMaxY := by
  rcases Nat.lt_or_ge i j with hlt | hge
  · exact le_trans (le_of_lt (wo_maxY_lt_minY h hlt hj)) (h.1 j hj)
  · have : i = j := by omega
    rw [this]

/-- Exhaustive characterization of the downward scan on a well-ordered stack:
starting below the bottom of layer `k`, it either finds the containing layer,
stops in the gap just below some layer `i + 1` it passed, or falls off the
bottom with the sentinel and cache `0`. -/
theorem searchDown_cases {col : Nat → Column} {n : Nat} {y : ℚ} :
    ∀ k, k < n → y < (col k).freeMinY →
    (∃ i, i < k ∧ (col i).freeMinY ≤ y ∧ y ≤ (col i).freeMaxY ∧
      (searchDown col y (col k).freeMinY k).value = y - (col i).freeMinY ∧
      (searchDown col y (col k).freeMinY k).cache = Int.ofNat i) ∨
    (∃ i, i + 1 ≤ k ∧ (col i).freeMaxY < y ∧ y < (col (i + 1)).freeMinY ∧
      (searchDown col y (col k).freeMinY k).value = y - (col (i + 1)).freeMinY ∧
      (searchDown col y (col k).freeMinY k).cache = Int.ofNat i) ∨
    ((∀ j, j ≤ k → y < (col j).freeMinY) ∧
      (searchDown col y (col k).freeMinY k).value = -INVALID_Y ∧
      (searchDown col y (col k).freeMinY k).cache = 0) := by
  intro k
  induction k with
  | zero =>
    intro _ hy
    right; right
    refine ⟨?_, rfl, rfl⟩
    intro j hj
    have : j = 0 := by omega
    rw [this]
    exact hy
  | succ m ih =>
    intro hk hy
    simp only [searchDown]
    split_ifs with hmax hmin
    · right; left
      exact ⟨m, by omega, hmax, hy, rfl, rfl⟩
    · left
      exact ⟨m, by omega, hmin, not_lt.mp hmax, rfl, rfl⟩
    · have hy' : y < (col m).freeMinY := not_le.mp hmin
      rcases ih (by omega) hy' with ⟨i, hik, c1, c2, hv, hc⟩ | ⟨i, hik, c1, c2, hv, hc⟩ |
        ⟨hall, hv, hc⟩
      · left
        exact ⟨i, by omega, c1, c2, by simpa using hv, by simpa using hc⟩
      · right; left
        exact ⟨i, by omega, c1, c2, by simpa using hv, by simpa using hc⟩
      · right; right
        refine ⟨?_, by simpa using hv, by simpa using hc⟩
        intro j hj
        rcases Nat.lt_or_ge j (m + 1) with hlt | hge
        · exact hall j (by omega)
        · have : j = m + 1 := by omega
          rw [this]
          exact hy

/-- Exhaustive characterization of the upward scan on a well-ordered stack:
with every layer up to the start strictly below the query, it either finds the
containing layer, stops in the gap just below the first layer whose bottom
exceeds the query, or exhausts the stack with the sentinel and the cache
pinned at the topmost layer.  (No well-orderedness is needed: the accumulated
hypotheses carry all the information the scan uses.) -/
theorem searchUp_cases {col : Nat → Column} {n : Nat} {y : ℚ} :
    ∀ fuel li, li < n → n ≤ fuel + li + 1 → (∀ j, j ≤ li → (col j).freeMaxY < y) →
    (∃ i, li < i ∧ i < n ∧ (col i).freeMinY ≤ y ∧ y ≤ (col i).freeMaxY ∧
      (searchUp col n y fuel li).value = y - (col i).freeMinY ∧
      (searchUp col n y fuel li).cache = Int.ofNat i) ∨
    (∃ i, li < i ∧ i < n ∧ y < (col i).freeMinY ∧ (∀ j, j < i → (col j).freeMaxY < y) ∧
      (searchUp col n y fuel li).value = y - (col i).freeMinY ∧
      (searchUp col n y fuel li).cache = Int.ofNat i) ∨
    ((∀ j, j < n → (col j).freeMaxY < y) ∧
      (searchUp col n y fuel li).value = -INVALID_Y ∧
      (searchUp col n y fuel li).cache = Int.ofNat (n - 1)) := by
  intro fuel
  induction fuel with
  | zero =>
    intro li _ hfuel hbelow
    right; right
    exact ⟨fun j hj => hbelow j (by omega), rfl, rfl⟩
  | succ f ihf =>
    intro li hli hfuel hbelow
    simp only [searchUp]
    split_ifs with hbound hgap hcont
    · right; right
      exact ⟨fun j hj => hbelow j (by omega), rfl, rfl⟩
    · right; left
      exact ⟨li + 1, by omega, by omega, hgap, fun j hj => hbelow j (by omega), rfl, rfl⟩
    · left
      exact ⟨li + 1, by omega, by omega, not_lt.mp hgap, hcont, rfl, rfl⟩
    · have hup : (col (li + 1)).freeMaxY < y := not_le.mp hcont
      have hbelow' : ∀ j, j ≤ li + 1 → (col j).freeMaxY < y := by
        intro j hj
        rcases Nat.lt_or_ge j (li + 1) with hlt | hge
        · exact hbelow j (by omega)
        · have : j = li + 1 := by omega
          rw [this]
          exact hup
      rcases ihf (li + 1) (by omega) (by omega) hbelow' with
        ⟨i, hki, hi, c1, c2, hv, hc⟩ | ⟨i, hki, hi, c1, c2, hv, hc⟩ | ⟨hall, hv, hc⟩
      · left
        exact ⟨i, by omega, hi, c1, c2, by simpa using hv, by simpa using hc⟩
      · right; left
        exact ⟨i, by omega, hi, c1, c2, by simpa using hv, by simpa using hc⟩
      · right; right
        exact ⟨hall, by simpa using hv, by simpa using hc⟩

/-- The clamped cache index is a valid layer index. -/
theorem clamp_lt {q : Int} {n : Nat} (hn : 0 < n) :
    (min (max q 0) (Int.ofNat (n - 1))).toNat < n := by
  have h1 : min (max q 0) (Int.ofNat (n - 1)) ≤ Int.ofNat (n - 1) := min_le_right _ _
  have h2 := Int.toNat_le_toNat h1
  have h3 : (Int.ofNat (n - 1)).toNat = n - 1 := Int.toNat_ofNat _
  omega

/-- Exhaustive characterization of the per-stack query on a well-ordered
stack: the result is determined by where the query Y falls — inside a layer's
interval (hit), strictly between two adjacent intervals (negative distance up
to the interval above, cache on either side of the gap), below every interval
(sentinel, cache `0`), or above every interval (sentinel, cache pinned to the
top layer). -/
theorem castDownCore_cases {col : Nat → Column} {n : Nat}
    (h : WellOrdered col n) (hn : 0 < n) (y : ℚ) (q : Int) :
    (∃ i, i < n ∧ (col i).freeMinY ≤ y ∧ y ≤ (col i).freeMaxY ∧
      (castDownCore col n y q).value = y - (col i).freeMinY ∧
      (castDownCore col n y q).cache = Int.ofNat i) ∨
    (∃ i, 0 < i ∧ i < n ∧ (col (i - 1)).freeMaxY < y ∧ y < (col i).freeMinY ∧
      (castDownCore col n y q).value = y - (col i).freeMinY ∧
      ((castDownCore col n y q).cache = Int.ofNat i ∨
        (castDownCore col n y q).cache = Int.ofNat (i - 1))) ∨
    (y < (col 0).freeMinY ∧
      (castDownCore col n y q).value = -INVALID_Y ∧
      (castDownCore col n y q).cache = 0) ∨
    ((col (n - 1)).freeMaxY < y ∧
      (castDownCore col n y q).value = -INVALID_Y ∧
      (castDownCore col n y q).cache = Int.ofNat (n - 1)) := by
  have hk : (min (max q 0) (Int.ofNat (n - 1))).toNat < n := clamp_lt hn
  simp only [castDownCore]
  set k := (min (max q 0) (Int.ofNat (n - 1))).toNat with hkdef
  split_ifs with hmin hmax
  · left
    exact ⟨k, hk, hmin, hmax, rfl, rfl⟩
  · have hkmax : (col k).freeMaxY < y := not_le.mp hmax
    have hbelow : ∀ j, j ≤ k → (col j).freeMaxY < y := by
      intro j hj
      rcases Nat.lt_or_ge j k with hlt | hge
      · have := wo_maxY_lt_minY h hlt hk
        linarith
      · have : j = k := by omega
        rw [this]
        exact hkmax
    rcases searchUp_cases n k hk (by omega) hbelow with
      ⟨i, hki, hi, c1, c2, hv, hc⟩ | ⟨i, hki, hi, c1, c2, hv, hc⟩ | ⟨hall, hv, hc⟩
    · left
      exact ⟨i, hi, c1, c2, by simpa using hv, by simpa using hc⟩
    · right; left
      exact ⟨i, by omega, hi, c2 (i - 1) (by omega), c1, by simpa using hv,
        Or.inl (by simpa using hc)⟩
    · right; right; right
      exact ⟨hall (n - 1) (by omega), by simpa using hv, by simpa using hc⟩
  · have hklt : y < (col k).freeMinY := not_le.mp hmin
    rcases searchDown_cases k hk hklt with
      ⟨i, hik, c1, c2, hv, hc⟩ | ⟨i, hik, c1, c2, hv, hc⟩ | ⟨hall, hv, hc⟩
    · left
      exact ⟨i, by omega, c1, c2, by simpa using hv, by simpa using hc⟩
    · right; left
      have heq : i + 1 - 1 = i := by omega
      refine ⟨i + 1, by omega, by omega, ?_, c2, by simpa using hv, Or.inr ?_⟩
      · rw [heq]
        exact c1
      · rw [heq]
        simpa using hc
    · right; right; left
      exact ⟨hall 0 (by omega), by simpa using hv, by simpa using hc⟩

/-- When some layer's interval contains the query Y, the per-stack query
returns exactly the height above that interval's floor, with the cache set to
that layer, for every initial cache value. -/
theorem castDownCore_value_contain {col : Nat → Column} {n : Nat} {y : ℚ}
    (h : WellOrdered col n) (hn : 0 < n) {i : Nat} (hi : i < n)
    (h1 : (col i).freeMinY ≤ y) (h2 : y ≤ (col i).freeMaxY) (q : Int) :
    (castDownCore col n y q).value = y - (col i).freeMinY ∧
    (castDownCore col n y q).cache = Int.ofNat i := by
  rcases castDownCore_cases h hn y q with
    ⟨j, hj, c1, c2, hv, hc⟩ | ⟨j, hj0, hj, c1, c2, hv, hc⟩ | ⟨c1, hv, hc⟩ | ⟨c1, hv, hc⟩
  · have : i = j := by
      rcases lt_trichotomy i j with hlt | heq | hgt
      · have := wo_maxY_lt_minY h hlt hj
        linarith
      · exact heq
      · have := wo_maxY_lt_minY h hgt hi
        linarith
    rw [this]
    exact ⟨hv, hc⟩
  · exfalso
    rcases Nat.lt_or_ge i j with hlt | hge
    · have : (col i).freeMaxY ≤ (col (j - 1)).freeMaxY := wo_maxY_le h (by omega) (by omega)
      linarith
    · have : (col j).freeMinY ≤ (col i).freeMinY := wo_minY_le h hge hi
      linarith
  · exfalso
    have : (col 0).freeMinY ≤ (col i).freeMinY := wo_minY_le h (by omega) hi
    linarith
  · exfalso
    have : (col i).freeMaxY ≤ (col (n - 1)).freeMaxY := wo_maxY_le h (by omega) (by omega)
    linarith

/-- When the query Y falls strictly between two adjacent intervals, the
per-stack query returns the (negative) distance up to the upper interval's
floor, for every initial cache value. -/
theorem castDownCore_value_gap {col : Nat → Column} {n : Nat} {y : ℚ}
    (h : WellOrdered col n) (hn : 0 < n) {i : Nat} (hi0 : 0 < i) (hi : i < n)
    (h1 : (col (i - 1)).freeMaxY < y) (h2 : y < (col i).freeMinY) (q : Int) :
    (castDownCore col n y q).value = y - (col i).freeMinY := by
  rcases castDownCore_cases h hn y q with
    ⟨j, hj, c1, c2, hv, hc⟩ | ⟨j, hj0, hj, c1, c2, hv, hc⟩ | ⟨c1, hv, hc⟩ | ⟨c1, hv, hc⟩
  · exfalso
    rcases Nat.lt_or_ge j i with hlt | hge
    · have : (col j).freeMaxY ≤ (col (i - 1)).freeMaxY := wo_maxY_le h (by omega) (by omega)
      linarith
    · have : (col i).freeMinY ≤ (col j).freeMinY := wo_minY_le h hge hj
      linarith
  · have : i = j := by
      rcases lt_trichotomy i j with hlt | heq | hgt
      · exfalso
        have hij : (col i).freeMinY ≤ (col i).freeMaxY := h.1 i hi
        have : (col i).freeMaxY ≤ (col (j - 1)).freeMaxY := wo_maxY_le h (by omega) (by omega)
        linarith
      · exact heq
      · exfalso
        have hjj : (col j).freeMinY ≤ (col j).freeMaxY := h.1 j hj
        have : (col j).freeMaxY ≤ (col (i - 1)).freeMaxY := wo_maxY_le h (by omega) (by omega)
        linarith
    rw [this]
    exact hv
  · exfalso
    have hle : (col 0).freeMinY ≤ (col (i - 1)).freeMinY := wo_minY_le h (by omega) (by omega)
    have hmm : (col (i - 1)).freeMinY ≤ (col (i - 1)).freeMaxY := h.1 (i - 1) (by omega)
    linarith
  · exfalso
    have hle : (col i).freeMinY ≤ (col (n - 1)).freeMinY := wo_minY_le h (by omega) (by omega)
    have hmm : (col (n - 1)).freeMinY ≤ (col (n - 1)).freeMaxY := h.1 (n - 1) (by omega)
    linarith

/-- Below every interval of the stack, the per-stack query returns the
sentinel and pins the cache at layer `0`, for every initial cache value. -/
theorem castDownCore_value_below {col : Nat → Column} {n : Nat} {y : ℚ}
    (h : WellOrdered col n) (hn : 0 < n) (hb : y < (col 0).freeMinY) (q : Int) :
    (castDownCore col n y q).value = -INVALID_Y ∧ (castDownCore col n y q).cache = 0 := by
  rcases castDownCore_cases h hn y q with
    ⟨j, hj, c1, c2, hv, hc⟩ | ⟨j, hj0, hj, c1, c2, hv, hc⟩ | ⟨c1, hv, hc⟩ | ⟨c1, hv, hc⟩
  · exfalso
    have : (col 0).freeMinY ≤ (col j).freeMinY := wo_minY_le h (by omega) hj
    linarith
  · exfalso
    have hle : (col 0).freeMinY ≤ (col (j - 1)).freeMinY := wo_minY_le h (by omega) (by omega)
    have hmm : (col (j - 1)).freeMinY ≤ (col (j - 1)).freeMaxY := h.1 (j - 1) (by omega)
    linarith
  · exact ⟨hv, hc⟩
  · exfalso
    have hle : (col 0).freeMinY ≤ (col (n - 1)).freeMinY := wo_minY_le h (by omega) (by omega)
    have hmm : (col (n - 1)).freeMinY ≤ (col (n - 1)).freeMaxY := h.1 (n - 1) (by omega)
    linarith

/-- Above every interval of the stack, the per-stack query returns the
sentinel and pins the cache at the topmost layer, for every initial cache
value. -/
theorem castDownCore_value_above {col : Nat → Column} {n : Nat} {y : ℚ}
    (h : WellOrdered col n) (hn : 0 < n) (ha : (col (n - 1)).freeMaxY < y) (q : Int) :
    (castDownCore col n y q).value = -INVALID_Y ∧
    (castDownCore col n y q).cache = Int.ofNat (n - 1) := by
  rcases castDownCore_cases h hn y q with
    ⟨j, hj, c1, c2, hv, hc⟩ | ⟨j, hj0, hj, c1, c2, hv, hc⟩ | ⟨c1, hv, hc⟩ | ⟨c1, hv, hc⟩
  · exfalso
    have : (col j).freeMaxY ≤ (col (n - 1)).freeMaxY := wo_maxY_le h (by omega) (by omega)
    linarith
  · exfalso
    have hmm : (col j).freeMinY ≤ (col j).freeMaxY := h.1 j hj
    have : (col j).freeMaxY ≤ (col (n - 1)).freeMaxY := wo_maxY_le h (by omega) (by omega)
    linarith
  · exfalso
    have hmm : (col 0).freeMinY ≤ (col 0).freeMaxY := h.1 0 (by omega)
    have : (col 0).freeMaxY ≤ (col (n - 1)).freeMaxY := wo_maxY_le h (by omega) (by omega)
    linarith
  · exact ⟨hv, hc⟩

/-- On a well-ordered stack every query Y is in exactly one of the four
regions the query distinguishes: inside some interval, strictly between two
adjacent intervals, below all intervals, or above all intervals. -/
theorem stack_trichotomy {col : Nat → Column} {n : Nat}
    (hn : 0 < n) (y : ℚ) :
    (∃ i, i < n ∧ (col i).freeMinY ≤ y ∧ y ≤ (col i).freeMaxY) ∨
    (∃ i, 0 < i ∧ i < n ∧ (col (i - 1)).freeMaxY < y ∧ y < (col i).freeMinY) ∨
    y < (col 0).freeMinY ∨ (col (n - 1)).freeMaxY < y := by
  by_cases hb : y < (col 0).freeMinY
  · right; right; left
    exact hb
  by_cases ha : (col (n - 1)).freeMaxY < y
  · right; right; right
    exact ha
  have h1 : (col 0).freeMinY ≤ y := not_lt.mp hb
  have h2 : y ≤ (col (n - 1)).freeMaxY := not_lt.mp ha
  have hex : ∃ j, y ≤ (col j).freeMaxY ∧ j < n := ⟨n - 1, h2, by omega⟩
  classical
  let i := Nat.find hex
  have hspec : y ≤ (col i).freeMaxY ∧ i < n := Nat.find_spec hex
  have hmin : ∀ j, j < i → ¬(y ≤ (col j).freeMaxY ∧ j < n) :=
    fun j hj => Nat.find_min hex hj
  by_cases hc : (col i).freeMinY ≤ y
  · left
    exact ⟨i, hspec.2, hc, hspec.1⟩
  · have hipos : 0 < i := by
      rcases Nat.eq_zero_or_pos i with h0 | hpos
      · exfalso
        rw [h0] at hc
        exact hc h1
      · exact hpos
    right; left
    refine ⟨i, hipos, hspec.2, ?_, not_le.mp hc⟩
    have hnot : ¬(y ≤ (col (i - 1)).freeMaxY ∧ (i - 1) < n) := hmin (i - 1) (by omega)
    have : ¬(y ≤ (col (i - 1)).freeMaxY) := by
      intro hy
      exact hnot ⟨hy, by omega⟩
    exact not_le.mp this

/-- The upward scan fetches at most the layers strictly above its start. -/
theorem searchUp_reads {col : Nat → Column} {n : Nat} {y : ℚ} :
    ∀ fuel li, (searchUp col n y fuel li).reads ≤ n - li - 1 := by
  intro fuel
  induction fuel with
  | zero => intro li; exact Nat.zero_le _
  | succ f ihf =>
    intro li
    simp only [searchUp]
    split_ifs with hbound hgap hcont
    · exact Nat.zero_le _
    · show 1 ≤ n - li - 1
      omega
    · show 1 ≤ n - li - 1
      omega
    · show (searchUp col n y f (li + 1)).reads + 1 ≤ n - li - 1
      have := ihf (li + 1)
      omega

/-- The downward scan fetches at most the layers strictly below its start. -/
theorem searchDown_reads {col : Nat → Column} {y : ℚ} :
    ∀ k, ∀ prev : ℚ, (searchDown col y prev k).reads ≤ k := by
  intro k
  induction k with
  | zero => intro prev; exact Nat.zero_le _
  | succ m ih =>
    intro prev
    simp only [searchDown]
    split_ifs with hmax hmin
    · show 1 ≤ m + 1
      omega
    · show 1 ≤ m + 1
      omega
    · show (searchDown col y (col m).freeMinY m).reads + 1 ≤ m + 1
      have := ih ((col m).freeMinY)
      omega

/-- The per-stack query fetches at most `numLayers` columns in total. -/
theorem castDownCore_reads {col : Nat → Column} {n : Nat} (hn : 0 < n) (y : ℚ) (q : Int) :
    (castDownCore col n y q).reads ≤ n := by
  have hk : (min (max q 0) (Int.ofNat (n - 1))).toNat < n := clamp_lt hn
  simp only [castDownCore]
  set k := (min (max q 0) (Int.ofNat (n - 1))).toNat with hkdef
  split_ifs with hmin hmax
  · show 1 ≤ n
    omega
  · show (searchUp col n y n k).reads + 1 ≤ n
    have hup : (searchUp col n y n k).reads ≤ n - k - 1 := searchUp_reads n k
    omega
  · show (searchDown col y (col k).freeMinY k).reads + 1 ≤ n
    have hdn : (searchDown col y (col k).freeMinY k).reads ≤ k :=
      searchDown_reads k ((col k).freeMinY)
    omega

/-- The upward scan always leaves the cache at a valid layer index. -/
theorem searchUp_cache {col : Nat → Column} {n : Nat} {y : ℚ} (hn : 0 < n) :
    ∀ fuel li, li < n → 0 ≤ (searchUp col n y fuel li).cache ∧
      (searchUp col n y fuel li).cache < Int.ofNat n := by
  intro fuel
  induction fuel with
  | zero =>
    intro li _
    exact ⟨Int.ofNat_nonneg _, Int.ofNat_lt.mpr (by omega)⟩
  | succ f ihf =>
    intro li hli
    simp only [searchUp]
    split_ifs with hbound hgap hcont
    · exact ⟨Int.ofNat_nonneg _, Int.ofNat_lt.mpr (by omega)⟩
    · exact ⟨Int.ofNat_nonneg _, Int.ofNat_lt.mpr (by omega)⟩
    · exact ⟨Int.ofNat_nonneg _, Int.ofNat_lt.mpr (by omega)⟩
    · have hli' : li + 1 < n := by omega
      have := ihf (li + 1) hli'
      simpa using this

/-- The downward scan always leaves the cache at a valid layer index. -/
theorem searchDown_cache {col : Nat → Column} {n : Nat} {y : ℚ} (hn : 0 < n) :
    ∀ k, ∀ prev : ℚ, k < n → 0 ≤ (searchDown col y prev k).cache ∧
      (searchDown col y prev k).cache < Int.ofNat n := by
  intro k
  induction k with
  | zero =>
    intro prev _
    exact ⟨le_refl 0, Int.ofNat_pos.mpr hn⟩
  | succ m ih =>
    intro prev hk
    simp only [searchDown]
    split_ifs with hmax hmin
    · exact ⟨Int.ofNat_nonneg _, Int.ofNat_lt.mpr (by omega)⟩
    · exact ⟨Int.ofNat_nonneg _, Int.ofNat_lt.mpr (by omega)⟩
    · have := ih ((col m).freeMinY) (by omega)
      simpa using this

/-- The per-stack query always leaves the cache at a valid layer index. -/
theorem castDownCore_cache {col : Nat → Column} {n : Nat} (hn : 0 < n) (y : ℚ) (q : Int) :
    0 ≤ (castDownCore col n y q).cache ∧ (castDownCore col n y q).cache < Int.ofNat n := by
  have hk : (min (max q 0) (Int.ofNat (n - 1))).toNat < n := clamp_lt hn
  simp only [castDownCore]
  set k := (min (max q 0) (Int.ofNat (n - 1))).toNat with hkdef
  split_ifs with hmin hmax
  · exact ⟨Int.ofNat_nonneg _, Int.ofNat_lt.mpr hk⟩
  · have hup : 0 ≤ (searchUp col n y n k).cache ∧ (searchUp col n y n k).cache < Int.ofNat n :=
      searchUp_cache hn n k hk
    simpa using hup
  · have hdn : 0 ≤ (searchDown col y (col k).freeMinY k).cache ∧
        (searchDown col y (col k).freeMinY k).cache < Int.ofNat n :=
      searchDown_cache hn k ((col k).freeMinY) hk
    simpa using hdn

/-- The contact flag is the sign test of the cast-down value. -/
theorem contactTest_fst (g : ColumnGridSource) (pos : Vec3) (q : Int) :
    (g.contactTest pos q).1 = decide ((g.castDownTest pos q).value < 0) := rfl

/-- The contact query's cache effect is the cast-down query's cache effect. -/
theorem contactTest_snd (g : ColumnGridSource) (pos : Vec3) (q : Int) :
    (g.contactTest pos q).2 = (g.castDownTest pos q).cache := rfl

/-- On an in-grid position whose patch has layers, `castDownTest` is the
per-stack query on the resolved column-stack. -/
theorem castDownTest_inGrid (g : ColumnGridSource) (pos : Vec3) (q : Int)
    (hx1 : 0 ≤ g.cellFloatX pos.x) (hx2 : g.cellFloatX pos.x < g.dimX)
    (hz1 : 0 ≤ g.cellFloatZ pos.z) (hz2 : g.cellFloatZ pos.z < g.dimZ)
    (hn : (g.patchAtXZ pos.x pos.z).numLayers ≠ 0) :
    g.castDownTest pos q =
      castDownCore (g.stackAtXZ pos.x pos.z) (g.patchAtXZ pos.x pos.z).numLayers pos.y q := by
  have hX : ¬(g.cellFloatX pos.x < 0 ∨ (g.dimX : ℚ) ≤ g.cellFloatX pos.x) := by
    rw [not_or]
    exact ⟨not_lt.mpr hx1, not_le.mpr hx2⟩
  have hZ : ¬(g.cellFloatZ pos.z < 0 ∨ (g.dimZ : ℚ) ≤ g.cellFloatZ pos.z) := by
    rw [not_or]
    exact ⟨not_lt.mpr hz1, not_le.mpr hz2⟩
  simp only [ColumnGridSource.castDownTest, if_neg hX, if_neg hZ, if_neg hn]

/-- C9: for every grid and input, `castDownTest` terminates (it is a total
function of the embedding, with the scans bounded exactly by the code's exit
conditions) and fetches at most `patch.numLayers` column records of the
resolved cell's column-stack. -/
theorem claim_C9 (g : ColumnGridSource) (pos : Vec3) (q : Int) :
    (g.castDownTest pos q).reads ≤ (g.patchAtXZ pos.x pos.z).numLayers := by
  simp only [ColumnGridSource.castDownTest]
  split_ifs with hA hB hC
  · exact Nat.zero_le _
  · exact Nat.zero_le _
  · exact Nat.zero_le _
  · exact castDownCore_reads (Nat.pos_of_ne_zero hC) pos.y q

/-- C10: when `castDownTest` returns the sentinel because the position is
horizontally off-grid or the owning patch has no layers, the caller's query
cache is left exactly as passed in; whenever a patch with layers is reached,
the cache is written with a value in `[0, numLayers - 1]`. -/
theorem claim_C10 (g : ColumnGridSource) (pos : Vec3) (q : Int) :
    ((g.cellFloatX pos.x < 0 ∨ (g.dimX : ℚ) ≤ g.cellFloatX pos.x ∨
      g.cellFloatZ pos.z < 0 ∨ (g.dimZ : ℚ) ≤ g.cellFloatZ pos.z ∨
      (g.patchAtXZ pos.x pos.z).numLayers = 0) →
      (g.castDownTest pos q).cache = q) ∧
    (0 < (g.patchAtXZ pos.x pos.z).numLayers →
      0 ≤ g.cellFloatX pos.x → g.cellFloatX pos.x < g.dimX →
      0 ≤ g.cellFloatZ pos.z → g.cellFloatZ pos.z < g.dimZ →
      0 ≤ (g.castDownTest pos q).cache ∧
      (g.castDownTest pos q).cache < Int.ofNat (g.patchAtXZ pos.x pos.z).numLayers) := by
  constructor
  · intro h
    simp only [ColumnGridSource.castDownTest]
    split_ifs with hA hB hC
    · rfl
    · rfl
    · rfl
    · exfalso
      rcases h with h | h | h | h | h
      · exact hA (Or.inl h)
      · exact hA (Or.inr h)
      · exact hB (Or.inl h)
      · exact hB (Or.inr h)
      · exact hC h
  · intro hn hx1 hx2 hz1 hz2
    rw [castDownTest_inGrid g pos q hx1 hx2 hz1 hz2 (by omega)]
    exact castDownCore_cache hn pos.y q

/-- Witness for C10 on the concrete grid: an off-grid query leaves the cache
value `7` untouched, and an in-grid query writes a valid layer index. -/
theorem claim_C10_witness :
    (exGrid.castDownTest ⟨2, 1, 1/2⟩ 7).cache = 7 ∧
    (0 ≤ (exGrid.castDownTest ⟨1/2, 1, 1/2⟩ 5).cache ∧
      (exGrid.castDownTest ⟨1/2, 1, 1/2⟩ 5).cache <
        Int.ofNat (exGrid.patchAtXZ (1/2) (1/2)).numLayers) := by
  constructor
  · exact (claim_C10 exGrid ⟨2, 1, 1/2⟩ 7).1
      (Or.inr (Or.inl (by norm_num [exGrid, ColumnGridSource.cellFloatX])))
  · exact (claim_C10 exGrid ⟨1/2, 1, 1/2⟩ 5).2
      (by norm_num [exGrid, ColumnGridSource.patchAtXZ, exPatch])
      (by norm_num [exGrid, ColumnGridSource.cellFloatX])
      (by norm_num [exGrid, ColumnGridSource.cellFloatX])
      (by norm_num [exGrid, ColumnGridSource.cellFloatZ])
      (by norm_num [exGrid, ColumnGridSource.cellFloatZ])

/-- C1: on a loaded (well-ordered) grid, for every in-grid position whose
cell belongs to a patch with layers and every initial cache value: if the
resolved layer's interval contains `pos.y`, `castDownTest` returns the
non-negative `pos.y - freeMinY` of that layer and `contactTest` is `false`;
if `pos.y` lies strictly between two stacked intervals, it returns the
negative `pos.y - freeMinY` of the interval just above and `contactTest` is
`true`; below or above all intervals the result is negative and `contactTest`
is `true`; and the result is non-negative exactly when some layer's interval
contains `pos.y`. -/
theorem claim_C1 (g : ColumnGridSource) (pos : Vec3) (q : Int)
    (hx1 : 0 ≤ g.cellFloatX pos.x) (hx2 : g.cellFloatX pos.x < g.dimX)
    (hz1 : 0 ≤ g.cellFloatZ pos.z) (hz2 : g.cellFloatZ pos.z < g.dimZ)
    (hn : 0 < (g.patchAtXZ pos.x pos.z).numLayers)
    (hwo : WellOrdered (g.stackAtXZ pos.x pos.z) (g.patchAtXZ pos.x pos.z).numLayers) :
    (∀ i, i < (g.patchAtXZ pos.x pos.z).numLayers →
      (g.stackAtXZ pos.x pos.z i).freeMinY ≤ pos.y →
      pos.y ≤ (g.stackAtXZ pos.x pos.z i).freeMaxY →
      (g.castDownTest pos q).value = pos.y - (g.stackAtXZ pos.x pos.z i).freeMinY ∧
      0 ≤ (g.castDownTest pos q).value ∧ (g.contactTest pos q).1 = false) ∧
    (∀ i, 0 < i → i < (g.patchAtXZ pos.x pos.z).numLayers →
      (g.stackAtXZ pos.x pos.z (i - 1)).freeMaxY < pos.y →
      pos.y < (g.stackAtXZ pos.x pos.z i).freeMinY →
      (g.castDownTest pos q).value = pos.y - (g.stackAtXZ pos.x pos.z i).freeMinY ∧
      (g.castDownTest pos q).value < 0 ∧ (g.contactTest pos q).1 = true) ∧
    ((pos.y < (g.stackAtXZ pos.x pos.z 0).freeMinY ∨
      (g.stackAtXZ pos.x pos.z ((g.patchAtXZ pos.x pos.z).numLayers - 1)).freeMaxY < pos.y) →
      (g.castDownTest pos q).value < 0 ∧ (g.contactTest pos q).1 = true) ∧
    (0 ≤ (g.castDownTest pos q).value ↔
      ∃ i, i < (g.patchAtXZ pos.x pos.z).numLayers ∧
        (g.stackAtXZ pos.x pos.z i).freeMinY ≤ pos.y ∧
        pos.y ≤ (g.stackAtXZ pos.x pos.z i).freeMaxY) := by
  have heq := castDownTest_inGrid g pos q hx1 hx2 hz1 hz2 (by omega)
  refine ⟨?_, ?_, ?_, ?_⟩
  · intro i hi h1 h2
    have hc := castDownCore_value_contain hwo hn hi h1 h2 q
    have hv : (g.castDownTest pos q).value = pos.y - (g.stackAtXZ pos.x pos.z i).freeMinY := by
      rw [heq]
      exact hc.1
    refine ⟨hv, ?_, ?_⟩
    · rw [hv]
      exact sub_nonneg.mpr h1
    · rw [contactTest_fst]
      apply decide_eq_false
      rw [hv]
      exact not_lt.mpr (sub_nonneg.mpr h1)
  · intro i hi0 hi h1 h2
    have hc := castDownCore_value_gap hwo hn hi0 hi h1 h2 q
    have hv : (g.castDownTest pos q).value = pos.y - (g.stackAtXZ pos.x pos.z i).freeMinY := by
      rw [heq]
      exact hc
    have hneg : (g.castDownTest pos q).value < 0 := by
      rw [hv]
      exact sub_neg.mpr h2
    refine ⟨hv, hneg, ?_⟩
    rw [contactTest_fst]
    exact decide_eq_true hneg
  · intro hout
    have hneg : (g.castDownTest pos q).value < 0 := by
      rw [heq]
      rcases hout with hb | ha
      · rw [(castDownCore_value_below hwo hn hb q).1]
        norm_num [INVALID_Y]
      · rw [(castDownCore_value_above hwo hn ha q).1]
        norm_num [INVALID_Y]
    refine ⟨hneg, ?_⟩
    rw [contactTest_fst]
    exact decide_eq_true hneg
  · constructor
    · intro hge
      rcases stack_trichotomy hn pos.y with ⟨i, hi, h1, h2⟩ | ⟨i, hi0, hi, h1, h2⟩ | hb | ha
      · exact ⟨i, hi, h1, h2⟩
      · exfalso
        have hc := castDownCore_value_gap hwo hn hi0 hi h1 h2 q
        rw [heq, hc] at hge
        have := sub_neg.mpr h2
        linarith
      · exfalso
        rw [heq, (castDownCore_value_below hwo hn hb q).1] at hge
        norm_num [INVALID_Y] at hge
      · exfalso
        rw [heq, (castDownCore_value_above hwo hn ha q).1] at hge
        norm_num [INVALID_Y] at hge
    · intro hex
      obtain ⟨i, hi, h1, h2⟩ := hex
      have hc := castDownCore_value_contain hwo hn hi h1 h2 q
      rw [heq, hc.1]
      exact sub_nonneg.mpr h1

/-- Witness for C1 on the concrete grid: `y = 1/2` is contained in the bottom
interval `[0,1]`, the query returns `1/2 - 0 ≥ 0`, and `contactTest` is
`false`. -/
theorem claim_C1_witness :
    (exGrid.castDownTest ⟨1/2, 1/2, 1/2⟩ 0).value =
      1/2 - (exGrid.stackAtXZ (1/2) (1/2) 0).freeMinY ∧
    0 ≤ (exGrid.castDownTest ⟨1/2, 1/2, 1/2⟩ 0).value ∧
    (exGrid.contactTest ⟨1/2, 1/2, 1/2⟩ 0).1 = false :=
  (claim_C1 exGrid ⟨1/2, 1/2, 1/2⟩ 0
    (by norm_num [exGrid, ColumnGridSource.cellFloatX])
    (by norm_num [exGrid, ColumnGridSource.cellFloatX])
    (by norm_num [exGrid, ColumnGridSource.cellFloatZ])
    (by norm_num [exGrid, ColumnGridSource.cellFloatZ])
    (by norm_num [exGrid, ColumnGridSource.patchAtXZ, exPatch])
    (by
      have h : WellOrdered exStack 2 := by
        constructor
        · intro i hi
          interval_cases i <;> norm_num [exStack]
        · intro i hi hj
          interval_cases i
          · norm_num [exStack]
          · omega
      exact h)).1 0
    (by norm_num [exGrid, ColumnGridSource.patchAtXZ, exPatch])
    (by
      show (exStack 0).freeMinY ≤ 1/2
      norm_num [exStack])
    (by
      show (1 : ℚ)/2 ≤ (exStack 0).freeMaxY
      norm_num [exStack])

/-- C2: on a grid whose resolved column-stack is Y-ordered and
non-overlapping, `castDownTest` returns the same numeric result for every
initial query-cache value. -/
theorem claim_C2 (g : ColumnGridSource) (pos : Vec3)
    (hwo : WellOrdered (g.stackAtXZ pos.x pos.z) (g.patchAtXZ pos.x pos.z).numLayers)
    (q1 q2 : Int) :
    (g.castDownTest pos q1).value = (g.castDownTest pos q2).value := by
  by_cases hX : g.cellFloatX pos.x < 0 ∨ (g.dimX : ℚ) ≤ g.cellFloatX pos.x
  · simp only [ColumnGridSource.castDownTest, if_pos hX]
  by_cases hZ : g.cellFloatZ pos.z < 0 ∨ (g.dimZ : ℚ) ≤ g.cellFloatZ pos.z
  · simp only [ColumnGridSource.castDownTest, if_neg hX, if_pos hZ]
  by_cases hn0 : (g.patchAtXZ pos.x pos.z).numLayers = 0
  · simp only [ColumnGridSource.castDownTest, if_neg hX, if_neg hZ, if_pos hn0]
  · rw [not_or] at hX hZ
    have hx1 : 0 ≤ g.cellFloatX pos.x := not_lt.mp hX.1
    have hx2 : g.cellFloatX pos.x < g.dimX := not_le.mp hX.2
    have hz1 : 0 ≤ g.cellFloatZ pos.z := not_lt.mp hZ.1
    have hz2 : g.cellFloatZ pos.z < g.dimZ := not_le.mp hZ.2
    have hn : 0 < (g.patchAtXZ pos.x pos.z).numLayers := Nat.pos_of_ne_zero hn0
    rw [castDownTest_inGrid g pos q1 hx1 hx2 hz1 hz2 hn0,
      castDownTest_inGrid g pos q2 hx1 hx2 hz1 hz2 hn0]
    rcases stack_trichotomy hn pos.y with ⟨i, hi, h1, h2⟩ | ⟨i, hi0, hi, h1, h2⟩ | hb | ha
    · rw [(castDownCore_value_contain hwo hn hi h1 h2 q1).1,
        (castDownCore_value_contain hwo hn hi h1 h2 q2).1]
    · rw [castDownCore_value_gap hwo hn hi0 hi h1 h2 q1,
        castDownCore_value_gap hwo hn hi0 hi h1 h2 q2]
    · rw [(castDownCore_value_below hwo hn hb q1).1,
        (castDownCore_value_below hwo hn hb q2).1]
    · rw [(castDownCore_value_above hwo hn ha q1).1,
        (castDownCore_value_above hwo hn ha q2).1]

/-- Witness for C2, the spec's own example: stack `[0,1]`, `[5,6]`, query
`y = 5.5` with initial caches `0` and `1` returns the same value, namely
`0.5`. -/
theorem claim_C2_witness :
    (exGrid.castDownTest ⟨1/2, 11/2, 1/2⟩ 0).value =
      (exGrid.castDownTest ⟨1/2, 11/2, 1/2⟩ 1).value ∧
    (exGrid.castDownTest ⟨1/2, 11/2, 1/2⟩ 0).value = 1/2 := by
  constructor
  · exact claim_C2 exGrid ⟨1/2, 11/2, 1/2⟩
      (by
        have h : WellOrdered exStack 2 := by
          constructor
          · intro i hi
            interval_cases i <;> norm_num [exStack]
          · intro i hi hj
            interval_cases i
            · norm_num [exStack]
            · omega
        exact h) 0 1
  · norm_num [ColumnGridSource.castDownTest, castDownCore, searchUp, searchDown,
      ColumnGridSource.cellFloatX, ColumnGridSource.cellFloatZ,
      ColumnGridSource.globalCellX, ColumnGridSource.globalCellZ,
      ColumnGridSource.patchAtXZ, ColumnGridSource.localCellIdxAtXZ,
      ColumnGridSource.stackAtXZ, ColumnGridSource.getPatchIndex,
      ColumnGridSource.numPatchesX, getLocalCellIndex, patchShift,
      globalToLocalCellMask, exGrid, exPatch, exStack, INVALID_Y,
      CastResult.addRead, Rat.floor]

/-- C3: the sentinel `-INVALID_Y` (`outsideVolumeRetVal`) is returned for
every `y` and every cache value exactly in the two early-exit situations:
the horizontal position is off-grid (`x < minX`, `x >= minX + dimX *
gridSpacing`, or the equivalent on `z`), or the owning patch has
`numLayers == 0`.  (A consistently loaded grid has `invGridSpacing =
1 / gridSpacing` with `gridSpacing > 0`, and a well-ordered resolved
stack.) -/
theorem claim_C3 (g : ColumnGridSource) (x z : ℚ)
    (hg : 0 < g.gridSpacing) (hinv : g.invGridSpacing = 1 / g.gridSpacing)
    (hwo : WellOrdered (g.stackAtXZ x z) (g.patchAtXZ x z).numLayers) :
    (∀ y q, (g.castDownTest ⟨x, y, z⟩ q).value = -INVALID_Y) ↔
    (x < g.minX ∨ g.minX + g.dimX * g.gridSpacing ≤ x ∨
      z < g.minZ ∨ g.minZ + g.dimZ * g.gridSpacing ≤ z ∨
      (g.patchAtXZ x z).numLayers = 0) := by
  have hcfX : g.cellFloatX x = (x - g.minX) / g.gridSpacing := by
    rw [ColumnGridSource.cellFloatX, hinv, mul_one_div]
  have hcfZ : g.cellFloatZ z = (z - g.minZ) / g.gridSpacing := by
    rw [ColumnGridSource.cellFloatZ, hinv, mul_one_div]
  have h1 : g.cellFloatX x < 0 ↔ x < g.minX := by
    rw [hcfX, div_lt_iff₀ hg]
    constructor <;> intro hh <;> linarith
  have h2 : (g.dimX : ℚ) ≤ g.cellFloatX x ↔ g.minX + g.dimX * g.gridSpacing ≤ x := by
    rw [hcfX, le_div_iff₀ hg]
    constructor <;> intro hh <;> linarith
  have h3 : g.cellFloatZ z < 0 ↔ z < g.minZ := by
    rw [hcfZ, div_lt_iff₀ hg]
    constructor <;> intro hh <;> linarith
  have h4 : (g.dimZ : ℚ) ≤ g.cellFloatZ z ↔ g.minZ + g.dimZ * g.gridSpacing ≤ z := by
    rw [hcfZ, le_div_iff₀ hg]
    constructor <;> intro hh <;> linarith
  constructor
  · intro hall
    by_contra hnot
    push_neg at hnot
    obtain ⟨hb1, hb2, hb3, hb4, hb5⟩ := hnot
    have hx1 : 0 ≤ g.cellFloatX x := by
      rw [hcfX]
      apply div_nonneg _ (le_of_lt hg)
      linarith
    have hx2 : g.cellFloatX x < g.dimX := by
      rw [hcfX, div_lt_iff₀ hg]
      linarith
    have hz1 : 0 ≤ g.cellFloatZ z := by
      rw [hcfZ]
      apply div_nonneg _ (le_of_lt hg)
      linarith
    have hz2 : g.cellFloatZ z < g.dimZ := by
      rw [hcfZ, div_lt_iff₀ hg]
      linarith
    have hn : 0 < (g.patchAtXZ x z).numLayers := Nat.pos_of_ne_zero hb5
    have heq := castDownTest_inGrid g ⟨x, (g.stackAtXZ x z 0).freeMinY, z⟩ 0
      hx1 hx2 hz1 hz2 hb5
    have hc := castDownCore_value_contain hwo hn hn (le_refl (g.stackAtXZ x z 0).freeMinY)
      (hwo.1 0 hn) (0 : Int)
    have hzero := hall (g.stackAtXZ x z 0).freeMinY 0
    rw [heq] at hzero
    rw [hc.1] at hzero
    rw [sub_self] at hzero
    norm_num [INVALID_Y] at hzero
  · intro hcase y q
    simp only [ColumnGridSource.castDownTest]
    split_ifs with hA hB hC
    · rfl
    · rfl
    · rfl
    · exfalso
      rcases hcase with h | h | h | h | h
      · exact hA (Or.inl (h1.mpr h))
      · exact hA (Or.inr (h2.mpr h))
      · exact hB (Or.inl (h3.mpr h))
      · exact hB (Or.inr (h4.mpr h))
      · exact hC h

/-- Witness for C3 on the concrete grid at its only cell: since the position
is on-grid and the patch has layers, the right side is false, hence not every
`y` yields the sentinel. -/
theorem claim_C3_witness :
    ((∀ y q, (exGrid.castDownTest ⟨1/2, y, 1/2⟩ q).value = -INVALID_Y) ↔
      (1/2 < exGrid.minX ∨ exGrid.minX + exGrid.dimX * exGrid.gridSpacing ≤ 1/2 ∨
        1/2 < exGrid.minZ ∨ exGrid.minZ + exGrid.dimZ * exGrid.gridSpacing ≤ 1/2 ∨
        (exGrid.patchAtXZ (1/2) (1/2)).numLayers = 0)) :=
  claim_C3 exGrid (1/2) (1/2)
    (by norm_num [exGrid])
    (by norm_num [exGrid])
    (by
      have h : WellOrdered exStack 2 := by
        constructor
        · intro i hi
          interval_cases i <;> norm_num [exStack]
        · intro i hi hj
          interval_cases i
          · norm_num [exStack]
          · omega
      exact h)

/-- Reading back the stream that `save` wrote reconstructs exactly the saved
layers, with every read complete, provided each layer holds the full
`dimX * dimZ` records. -/
theorem readLayers_save (chunk : Nat) :
    ∀ ls : List Layer, (∀ l ∈ ls, l.columns.length = chunk) →
    readLayers chunk ls.length ((ls.map (fun l => l.columns.take chunk)).flatten) =
      (ls, true) := by
  intro ls
  induction ls with
  | nil => intro _; rfl
  | cons l rest ih =>
    intro hlen
    have hl : l.columns.length = chunk := hlen l (List.mem_cons_self l rest)
    have htake : l.columns.take chunk = l.columns := by
      rw [← hl]
      exact List.take_length l.columns
    simp only [List.map_cons, List.flatten_cons, List.length_cons, readLayers, htake]
    have hle : chunk ≤ (l.columns ++ (rest.map (fun l => l.columns.take chunk)).flatten).length := by
      rw [List.length_append, hl]
      omega
    rw [if_pos hle]
    have htk : (l.columns ++ (rest.map (fun l => l.columns.take chunk)).flatten).take chunk
        = l.columns := by
      rw [← hl]
      exact List.take_left l.columns _
    have hdp : (l.columns ++ (rest.map (fun l => l.columns.take chunk)).flatten).drop chunk
        = (rest.map (fun l => l.columns.take chunk)).flatten := by
      rw [← hl]
      exact List.drop_left l.columns _
    rw [htk, hdp, ih (fun l hl => hlen l (List.mem_cons_of_mem _ hl))]

/-- C4: saving a valid in-memory grid and loading the resulting file into a
fresh instance reproduces every header field (grid origin, spacing, sphere
radius, dimensions, number of layers) and the exact `Column` arrays. -/
theorem claim_C4 (g : ColumnGridSource) (hx : 0 < g.dimX) (hz : 0 < g.dimZ)
    (hgs : 0 < g.gridSpacing) (hr : 0 < g.sphereRadius)
    (hlen : ∀ l ∈ g.layers, l.columns.length = g.dimX * g.dimZ) :
    (emptySource.load (some g.save)).dimX = g.dimX ∧
    (emptySource.load (some g.save)).dimZ = g.dimZ ∧
    (emptySource.load (some g.save)).minX = g.minX ∧
    (emptySource.load (some g.save)).minZ = g.minZ ∧
    (emptySource.load (some g.save)).gridSpacing = g.gridSpacing ∧
    (emptySource.load (some g.save)).sphereRadius = g.sphereRadius ∧
    (emptySource.load (some g.save)).layers.length = g.layers.length ∧
    (emptySource.load (some g.save)).layers = g.layers := by
  have hread := readLayers_save (g.dimX * g.dimZ) g.layers hlen
  simp only [ColumnGridSource.load, ColumnGridSource.save]
  rw [if_neg (by norm_num), if_neg (by norm_num)]
  simp only [hread]
  exact ⟨trivial, trivial, trivial, trivial, trivial, trivial, trivial, trivial⟩

/-- Witness for C4: the two-layer 1×1 grid round-trips exactly. -/
theorem claim_C4_witness :
    (emptySource.load (some exSaveGrid.save)).dimX = exSaveGrid.dimX ∧
    (emptySource.load (some exSaveGrid.save)).dimZ = exSaveGrid.dimZ ∧
    (emptySource.load (some exSaveGrid.save)).minX = exSaveGrid.minX ∧
    (emptySource.load (some exSaveGrid.save)).minZ = exSaveGrid.minZ ∧
    (emptySource.load (some exSaveGrid.save)).gridSpacing = exSaveGrid.gridSpacing ∧
    (emptySource.load (some exSaveGrid.save)).sphereRadius = exSaveGrid.sphereRadius ∧
    (emptySource.load (some exSaveGrid.save)).layers.length = exSaveGrid.layers.length ∧
    (emptySource.load (some exSaveGrid.save)).layers = exSaveGrid.layers :=
  claim_C4 exSaveGrid
    (by norm_num [exSaveGrid])
    (by norm_num [exSaveGrid])
    (by norm_num [exSaveGrid])
    (by norm_num [exSaveGrid])
    (by
      intro l hl
      simp only [exSaveGrid, List.mem_cons, List.not_mem_nil, or_false] at hl
      rcases hl with rfl | rfl <;> rfl)

/-- C5: `ColumnGridSet::load` probes files in index order, loads one grid per
present file (recording its sphere radius in the parallel list), stops at the
first missing file, and fails fatally (modelled as `none`) exactly when zero
grids are found, i.e. when the file at index 0 is missing. -/
theorem claim_C5 (fs : List (Option ColumnGridFile)) :
    ColumnGridSet.load fs =
      if presentFiles fs = [] then none
      else some ⟨(presentFiles fs).map (fun f => emptySource.load (some f)),
        ((presentFiles fs).map (fun f => emptySource.load (some f))).map
          (fun g => g.sphereRadius)⟩ := by
  have hloop : ∀ fs' : List (Option ColumnGridFile),
      loadGridsLoop fs' = (presentFiles fs').map (fun f => emptySource.load (some f)) := by
    intro fs'
    induction fs' with
    | nil => rfl
    | cons hd tl ih =>
      cases hd with
      | none => rfl
      | some f =>
        simp only [loadGridsLoop, presentFiles, List.map_cons, ih]
  simp only [ColumnGridSet.load, hloop]
  by_cases hp : presentFiles fs = []
  · rw [if_pos hp, hp]
    rfl
  · rw [if_neg hp]
    have hne : ((presentFiles fs).map (fun f => emptySource.load (some f))).isEmpty = false := by
      rw [List.isEmpty_eq_false_iff_exists_mem]
      obtain ⟨f, hf⟩ := List.exists_mem_of_ne_nil _ hp
      exact ⟨emptySource.load (some f), List.mem_map_of_mem _ hf⟩
    rw [hne]
    rfl

/-- C6: dispatch on a `ColumnGridSet` is bounds-checked: an out-of-range
`radiusIdx` fails loudly (modelled as `none`) for `getColumnGrid`,
`contactTest` and `castDownTest` alike, and an in-range `radiusIdx`
dispatches exactly to the `radiusIdx`-th loaded grid. -/
theorem claim_C6 (st : ColumnGridSet) (i : Int) (pos : Vec3) (q : Int) :
    (¬(0 ≤ i ∧ i.toNat < st.columnGrids.length) →
      st.getColumnGrid i = none ∧ st.contactTest i pos q = none ∧
      st.castDownTest i pos q = none) ∧
    (∀ h : 0 ≤ i ∧ i.toNat < st.columnGrids.length,
      st.getColumnGrid i = some (st.columnGrids.get ⟨i.toNat, h.2⟩) ∧
      st.contactTest i pos q =
        some ((st.columnGrids.get ⟨i.toNat, h.2⟩).contactTest pos q) ∧
      st.castDownTest i pos q =
        some ((st.columnGrids.get ⟨i.toNat, h.2⟩).castDownTest pos q)) := by
  constructor
  · intro h
    refine ⟨?_, ?_, ?_⟩ <;>
      simp only [ColumnGridSet.getColumnGrid, ColumnGridSet.contactTest,
        ColumnGridSet.castDownTest, safeVectorGet, dif_neg h, Option.map_none']
  · intro h
    refine ⟨?_, ?_, ?_⟩ <;>
      simp only [ColumnGridSet.getColumnGrid, ColumnGridSet.contactTest,
        ColumnGridSet.castDownTest, safeVectorGet, dif_pos h, Option.map_some']

/-- Witness for C6 on the concrete two-grid set: index `5` is rejected by all
three entry points, and index `1` dispatches to the second grid. -/
theorem claim_C6_witness :
    (exSet.getColumnGrid 5 = none ∧ exSet.contactTest 5 ⟨0, 0, 0⟩ 0 = none ∧
      exSet.castDownTest 5 ⟨0, 0, 0⟩ 0 = none) ∧
    (exSet.getColumnGrid 1 =
        some (exSet.columnGrids.get ⟨(1 : Int).toNat, by norm_num [exSet]⟩) ∧
      exSet.contactTest 1 ⟨0, 0, 0⟩ 0 =
        some ((exSet.columnGrids.get ⟨(1 : Int).toNat,
          by norm_num [exSet]⟩).contactTest ⟨0, 0, 0⟩ 0) ∧
      exSet.castDownTest 1 ⟨0, 0, 0⟩ 0 =
        some ((exSet.columnGrids.get ⟨(1 : Int).toNat,
          by norm_num [exSet]⟩).castDownTest ⟨0, 0, 0⟩ 0)) := by
  constructor
  · exact (claim_C6 exSet 5 ⟨0, 0, 0⟩ 0).1
      (by
        intro hcon
        have := hcon.2
        norm_num [exSet] at this)
  · exact (claim_C6 exSet 1 ⟨0, 0, 0⟩ 0).2 ⟨by norm_num, by norm_num [exSet]⟩

/-- C7: `ColumnGridSource::load` on a missing file, a magic mismatch, or a
version mismatch returns before assigning any scalar field or layer data, so
the instance is left exactly as it was before the call. -/
theorem claim_C7 (self : ColumnGridSource) (f : ColumnGridFile) :
    self.load none = self ∧
    ((f.header.magic ≠ MAGIC ∨ f.header.version ≠ CURRENT_FILE_VERSION) →
      self.load (some f) = self) := by
  constructor
  · rfl
  · intro h
    simp only [ColumnGridSource.load]
    rcases h with h | h
    · rw [if_pos h]
    · by_cases hm : f.header.magic ≠ MAGIC
      · rw [if_pos hm]
      · rw [if_neg hm, if_pos h]

/-- Witness for C7: loading a missing file, a wrong-magic file and a
wrong-version file each leave the concrete grid untouched. -/
theorem claim_C7_witness :
    exGrid.load none = exGrid ∧
    exGrid.load (some badMagicFile) = exGrid ∧
    exGrid.load (some badVersionFile) = exGrid :=
  ⟨(claim_C7 exGrid badMagicFile).1,
    (claim_C7 exGrid badMagicFile).2
      (Or.inl (by norm_num [badMagicFile, MAGIC])),
    (claim_C7 exGrid badVersionFile).2
      (Or.inr (by norm_num [badVersionFile, CURRENT_FILE_VERSION]))⟩

/-- Counterexample to C8 as stated: `ColumnGridSource::load` returns `void`
(only logging failures), and `ColumnGridSet::load` appends the grid
unconditionally — with the only file having a wrong magic constant, the load
fails, yet the set records the untouched default-constructed grid as a usable
entry. -/
theorem claim_C8_counterexample :
    loadResultOk (some badMagicFile) = false ∧
    emptySource.load (some badMagicFile) = emptySource ∧
    ColumnGridSet.load [some badMagicFile] =
      some ⟨[emptySource], [emptySource.sphereRadius]⟩ := by
  refine ⟨by norm_num [loadResultOk, badMagicFile, MAGIC], ?_, ?_⟩
  · simp only [ColumnGridSource.load]
    rw [if_pos (by norm_num [badMagicFile, MAGIC])]
  · have hload : emptySource.load (some badMagicFile) = emptySource := by
      simp only [ColumnGridSource.load]
      rw [if_pos (by norm_num [badMagicFile, MAGIC])]
    simp only [ColumnGridSet.load, loadGridsLoop, hload]
    rfl

/-- C8 amended: `ColumnGridSource::load` surfaces no error to its caller
(it returns `void` and only logs), and `ColumnGridSet::load` records one grid
per present file whether or not that grid's load succeeded — the head of the
loaded set is always the (possibly failed) load of the first file. -/
theorem claim_C8 (f : ColumnGridFile) (rest : List (Option ColumnGridFile)) :
    (ColumnGridSet.load (some f :: rest)).map (fun st => st.columnGrids.head?) =
      some (some (emptySource.load (some f))) := by
  simp only [ColumnGridSet.load, loadGridsLoop, List.isEmpty_cons, Bool.false_eq_true,
    if_false, Option.map_some', List.head?_cons]
